import Mathlib

/-!
Verification of the cross-context resource-lifecycle and renderable-replication
layer of the thirdroom engine.

The development shallowly embeds:

* the audio-data load state machine of `src/engine/audio/audio.main.ts`
  (`updateAudioDatas` and the completion handlers of its load promise);
* the render-side renderable table and message handlers of
  `src/engine/renderer/renderer.render.ts` (`onAddRenderable`,
  `onRemoveRenderable`, `onSetActiveCamera`, `onSetActiveScene`,
  `onRenderableMessage`, `processRenderableMessages`, and the `.finally`
  continuation that `onAddRenderable` attaches to a loading resource);
* the reliable-ordered network receive path, which is not under the sources
  provided and is therefore modelled from the spec.

JavaScript `Map` objects are embedded as association lists over `Nat` keys,
JavaScript arrays as `List`s with an explicit partial indexing function
(`listNth`, returning `none` where JavaScript yields `undefined`), and
`Array.prototype.splice` calls as the functions `spliceReplace` /
`spliceRemove`.  The three.js scene is embedded as the list of its children;
`Object3D.add` removes the object from its previous parent before appending,
and `Object3D.remove` deletes it, so scene membership is modelled by
`sceneAdd` / `sceneRemove` below.  Objects, entity ids and resource ids are
modelled as natural numbers.
-/

/-! ## Association lists embedding JavaScript Map -/

/-- Embedding of `Map.prototype.get`: first binding of the key, if any. -/
def mapGet {β : Type} : List (Nat × β) → Nat → Option β
  | [], _ => none
  | p :: rest, k => if p.1 = k then some p.2 else mapGet rest k

/-- Embedding of `Map.prototype.set`: replace the binding in place, else append. -/
def mapSet {β : Type} : List (Nat × β) → Nat → β → List (Nat × β)
  | [], k, v => [(k, v)]
  | p :: rest, k, v => if p.1 = k then (k, v) :: rest else p :: mapSet rest k v

/-- Embedding of `Map.prototype.delete`. -/
def mapDel {β : Type} (m : List (Nat × β)) (k : Nat) : List (Nat × β) :=
  m.filter (fun p => p.1 != k)

theorem mapGet_mapSet_self {β : Type} (m : List (Nat × β)) (k : Nat) (v : β) :
    mapGet (mapSet m k v) k = some v := by
  induction m with
  | nil => simp [mapSet, mapGet]
  | cons p rest ih =>
    by_cases h : p.1 = k
    · simp [mapSet, mapGet, h]
    · simp [mapSet, mapGet, h, ih]

theorem mapGet_mapDel_self {β : Type} (m : List (Nat × β)) (k : Nat) :
    mapGet (mapDel m k) k = none := by
  induction m with
  | nil => simp [mapDel, mapGet]
  | cons p rest ih =>
    by_cases h : p.1 = k
    · simpa [mapDel, List.filter_cons, h] using ih
    · simpa [mapDel, List.filter_cons, h, mapGet] using ih

theorem mem_mapDel {β : Type} {m : List (Nat × β)} {k : Nat} {p : Nat × β}
    (h : p ∈ mapDel m k) : p ∈ m ∧ p.1 ≠ k := by
  have := List.mem_filter.mp h
  refine ⟨this.1, ?_⟩
  simpa using this.2

theorem mem_of_mapGet_some {β : Type} {m : List (Nat × β)} {k : Nat} {v : β}
    (h : mapGet m k = some v) : (k, v) ∈ m := by
  induction m with
  | nil => simp [mapGet] at h
  | cons p rest ih =>
    by_cases hk : p.1 = k
    · simp [mapGet, hk] at h
      subst h
      cases p
      simp only at hk
      subst hk
      exact List.mem_cons_self _ _
    · simp [mapGet, hk] at h
      exact List.mem_cons_of_mem _ (ih h)

theorem mem_mapSet {β : Type} {m : List (Nat × β)} {k : Nat} {v : β} {p : Nat × β}
    (h : p ∈ mapSet m k v) : p = (k, v) ∨ p ∈ m := by
  induction m with
  | nil => simpa [mapSet] using h
  | cons q rest ih =>
    by_cases hq : q.1 = k
    · simp [mapSet, hq] at h
      rcases h with h | h
      · exact Or.inl h
      · exact Or.inr (List.mem_cons_of_mem _ h)
    · simp [mapSet, hq] at h
      rcases h with h | h
      · exact Or.inr (by simp [h])
      · rcases ih h with h' | h'
        · exact Or.inl h'
        · exact Or.inr (List.mem_cons_of_mem _ h')

/-! ## JavaScript array indexing and splice -/

/-- Embedding of `array[i]`: `none` plays the role of `undefined`. -/
def listNth {α : Type} : List α → Nat → Option α
  | [], _ => none
  | a :: _, 0 => some a
  | _ :: l, Nat.succ n => listNth l n

/-- Embedding of `array.splice(i, 1, x)`: the new array and the removed elements.
JavaScript clamps the start index to the length, so an out-of-range start
removes nothing and inserts at the end. -/
def spliceReplace {α : Type} : List α → Nat → α → List α × List α
  | [], _, x => ([x], [])
  | a :: l, 0, x => (x :: l, [a])
  | a :: l, Nat.succ i, x =>
    let p := spliceReplace l i x
    (a :: p.1, p.2)

/-- Embedding of `array.splice(i, 1)`: the new array and the removed elements. -/
def spliceRemove {α : Type} : List α → Nat → List α × List α
  | [], _ => ([], [])
  | a :: l, 0 => (l, [a])
  | a :: l, Nat.succ i =>
    let p := spliceRemove l i
    (a :: p.1, p.2)

theorem listNth_some_lt {α : Type} : ∀ {l : List α} {j : Nat} {a : α},
    listNth l j = some a → j < l.length
  | [], j, a, h => by simp [listNth] at h
  | b :: l, 0, a, _ => by simp
  | b :: l, Nat.succ j, a, h => by
    have := listNth_some_lt (l := l) (j := j) (a := a) h
    simpa [Nat.succ_lt_succ_iff] using this

theorem listNth_spliceReplace_eq {α : Type} : ∀ (l : List α) (i : Nat) (x : α),
    i < l.length → listNth (spliceReplace l i x).1 i = some x
  | [], i, x, h => by simp at h
  | a :: l, 0, x, _ => by simp [spliceReplace, listNth]
  | a :: l, Nat.succ i, x, h => by
    have hi : i < l.length := by simpa [Nat.succ_lt_succ_iff] using h
    simpa [spliceReplace, listNth] using listNth_spliceReplace_eq l i x hi

theorem listNth_spliceReplace_ne {α : Type} : ∀ (l : List α) (i : Nat) (x : α) (j : Nat),
    i < l.length → j ≠ i → listNth (spliceReplace l i x).1 j = listNth l j
  | [], i, x, j, h, _ => by simp at h
  | a :: l, 0, x, 0, _, hne => absurd rfl hne
  | a :: l, 0, x, Nat.succ j, _, _ => by simp [spliceReplace, listNth]
  | a :: l, Nat.succ i, x, 0, _, _ => by simp [spliceReplace, listNth]
  | a :: l, Nat.succ i, x, Nat.succ j, h, hne => by
    have hi : i < l.length := by simpa [Nat.succ_lt_succ_iff] using h
    have hj : j ≠ i := fun hji => hne (by simp [hji])
    simpa [spliceReplace, listNth] using listNth_spliceReplace_ne l i x j hi hj

theorem spliceReplace_removed {α : Type} : ∀ (l : List α) (i : Nat) (x : α) (a : α),
    listNth l i = some a → (spliceReplace l i x).2 = [a]
  | [], i, x, a, h => by simp [listNth] at h
  | b :: l, 0, x, a, h => by
    simp [listNth] at h
    simp [spliceReplace, h]
  | b :: l, Nat.succ i, x, a, h => by
    simpa [spliceReplace] using spliceReplace_removed l i x a (by simpa [listNth] using h)

theorem spliceRemove_removed {α : Type} : ∀ (l : List α) (i : Nat) (a : α),
    listNth l i = some a → (spliceRemove l i).2 = [a]
  | [], i, a, h => by simp [listNth] at h
  | b :: l, 0, a, h => by
    simp [listNth] at h
    simp [spliceRemove, h]
  | b :: l, Nat.succ i, a, h => by
    simpa [spliceRemove] using spliceRemove_removed l i a (by simpa [listNth] using h)

theorem listNth_spliceRemove_lt {α : Type} : ∀ (l : List α) (i j : Nat),
    j < i → listNth (spliceRemove l i).1 j = listNth l j
  | [], i, j, _ => by simp [spliceRemove]
  | a :: l, 0, j, h => by omega
  | a :: l, Nat.succ i, 0, _ => by simp [spliceRemove, listNth]
  | a :: l, Nat.succ i, Nat.succ j, h => by
    have hj : j < i := by omega
    simpa [spliceRemove, listNth] using listNth_spliceRemove_lt l i j hj

theorem listNth_append_self {α : Type} : ∀ (l : List α) (x : α),
    listNth (l ++ [x]) l.length = some x
  | [], x => by simp [listNth]
  | a :: l, x => by simpa [listNth] using listNth_append_self l x

theorem listNth_append_lt {α : Type} : ∀ (l : List α) (x : α) (j : Nat),
    j < l.length → listNth (l ++ [x]) j = listNth l j
  | [], x, j, h => by simp at h
  | a :: l, x, 0, _ => by simp [listNth]
  | a :: l, x, Nat.succ j, h => by
    have hj : j < l.length := by simpa [Nat.succ_lt_succ_iff] using h
    simpa [listNth] using listNth_append_lt l x j hj

/-! ## Audio-data load state machine (`src/engine/audio/audio.main.ts`) -/

/-- Load lifecycle states used by `resource.common`'s `LoadStatus`, as branched
on by `updateAudioDatas`. -/
inductive LoadStatus : Type where
  | Uninitialized
  | Loading
  | Loaded
  | Error
  | Disposed
deriving DecidableEq

/-- One `MainAudioData` local resource: its load status and its decoded payload
(`audioData.data`, a decoded buffer / element / stream modelled as a `Nat`). -/
structure MainAudioData : Type where
  loadStatus : LoadStatus
  data : Option Nat
deriving DecidableEq

/-- Per-resource step of `updateAudioDatas`: a load is initiated (returning
`true`) exactly when `loadStatus === LoadStatus.Uninitialized`, and the status
is then set to `Loading`.  Creation of the `AbortController` is a side effect
on the load task and is not part of the observable resource state. -/
def updateAudioDataStep (a : MainAudioData) : MainAudioData × Bool :=
  if a.loadStatus = LoadStatus.Uninitialized then
    ({ a with loadStatus := LoadStatus.Loading }, true)
  else (a, false)

/-- Iterated frames of `updateAudioDatas` acting on one resource. -/
def updateAudioDataIter : Nat → MainAudioData → MainAudioData
  | 0, a => a
  | Nat.succ n, a => updateAudioDataIter n (updateAudioDataStep a).1

/-- The `.then` completion handler of `loadAudioData(...)` in
`updateAudioDatas`, combined with the `.catch` that receives the error it may
throw: a resource already `Loaded` throws (and the `.catch` then marks it
`Error`); a resource that is not `Disposed` stores the payload and becomes
`Loaded`; a `Disposed` resource is left untouched and the payload is
discarded. -/
def onAudioLoadResolved (a : MainAudioData) (payload : Option Nat) : MainAudioData :=
  if a.loadStatus = LoadStatus.Loaded then { a with loadStatus := LoadStatus.Error }
  else if a.loadStatus ≠ LoadStatus.Disposed then
    { a with data := payload, loadStatus := LoadStatus.Loaded }
  else a

/-- The `.catch` rejection handler of the load promise: an `AbortError` (the
cancelled-load case) returns without touching the resource; any other failure
marks the resource `Error`. -/
def onAudioLoadRejected (a : MainAudioData) (isAbortError : Bool) : MainAudioData :=
  if isAbortError then a else { a with loadStatus := LoadStatus.Error }

/-! ## Renderer module state (`src/engine/renderer/renderer.render.ts`) -/

/-- Resource lifecycle state as branched on by `onAddRenderable`: the
`ResourceManager` store entry is `Loaded` (with its live `resource` object),
still `Loading` (with a pending promise), or failed (`Error`). -/
inductive ResourceState : Type where
  | Loaded (object : Nat)
  | Loading
  | Error
deriving DecidableEq

/-- One entry of the `renderables` array. -/
structure Renderable : Type where
  object : Option Nat
  helper : Option Nat
  eid : Nat
  resourceId : Nat
deriving DecidableEq

/-- Render-context messages drained by `processRenderableMessages`. -/
inductive RenderableMessage : Type where
  | AddRenderable (resourceId : Nat) (eid : Nat)
  | RemoveRenderable (eid : Nat)
  | SetActiveCamera (eid : Nat)
  | SetActiveScene (resourceId : Nat) (eid : Nat)
deriving DecidableEq

/-- The fields of `RendererModuleState` that the message handlers read and
write.  The scene is embedded as the list of its children; the camera as the
object id the module's `camera` field points at (rendering internals such as
the projection matrix are not part of the embedding). -/
structure RendererState : Type where
  renderableMessageQueue : List RenderableMessage
  renderables : List Renderable
  renderableIndices : List (Nat × Nat)
  objectToEntityMap : List (Nat × Nat)
  scene : List Nat
  camera : Option Nat
deriving DecidableEq

/-- The module state created by `RendererModule.create`. -/
def initialRendererState : RendererState :=
  { renderableMessageQueue := []
    renderables := []
    renderableIndices := []
    objectToEntityMap := []
    scene := []
    camera := none }

/-- Embedding of `Object3D.add` on the scene: the object is re-parented (so any
previous occurrence among the children disappears) and appended. -/
def sceneAdd (children : List Nat) (o : Nat) : List Nat :=
  children.filter (fun c => c != o) ++ [o]

/-- Embedding of `Object3D.remove` on the scene. -/
def sceneRemove (children : List Nat) (o : Nat) : List Nat :=
  children.filter (fun c => c != o)

/-- The one-shot continuation `onAddRenderable` attaches with
`resourceInfo.promise.finally(...)` while the resource is still loading: it
closes over the message (hence its `eid` and `resourceId`) and runs against
the live module state when the load settles. -/
structure LoadContinuation : Type where
  eid : Nat
  resourceId : Nat
  message : RenderableMessage
deriving DecidableEq

/-- Scene update shared by the handlers: remove the object of a spliced-out
renderable entry, if any. -/
def sceneAfterRemoved (scene : List Nat) (removed : List Renderable) : List Nat :=
  match removed with
  | r :: _ =>
    match r.object with
    | some o => sceneRemove scene o
    | none => scene
  | [] => scene

/-- Embedding of `onAddRenderable`.  Returns the updated module state together
with the continuation attached to the load promise, when the resource was
still `Loading`.  An unknown `resourceId` and an `Error` resource only log a
warning and leave the state unchanged. -/
def onAddRenderable (store : List (Nat × ResourceState)) (s : RendererState)
    (resourceId : Nat) (eid : Nat) : RendererState × Option LoadContinuation :=
  match mapGet store resourceId with
  | none => (s, none)
  | some (ResourceState.Loaded object) =>
    match mapGet s.renderableIndices eid with
    | some renderableIndex =>
      let p := spliceReplace s.renderables renderableIndex
        { object := some object, helper := none, eid := eid, resourceId := resourceId }
      ({ s with
          renderables := p.1
          scene := sceneAdd (sceneAfterRemoved s.scene p.2) object }, none)
    | none =>
      ({ s with
          renderableIndices := mapSet s.renderableIndices eid s.renderables.length
          renderables := s.renderables ++
            [{ object := some object, helper := none, eid := eid, resourceId := resourceId }]
          objectToEntityMap := mapSet s.objectToEntityMap object eid
          scene := sceneAdd s.scene object }, none)
  | some ResourceState.Loading =>
    match mapGet s.renderableIndices eid with
    | some renderableIndex =>
      let p := spliceReplace s.renderables renderableIndex
        { object := none, helper := none, eid := eid, resourceId := resourceId }
      ({ s with
          renderables := p.1
          scene := sceneAfterRemoved s.scene p.2 },
        some { eid := eid, resourceId := resourceId
               message := RenderableMessage.AddRenderable resourceId eid })
    | none =>
      ({ s with
          renderableIndices := mapSet s.renderableIndices eid s.renderables.length
          renderables := s.renderables ++
            [{ object := none, helper := none, eid := eid, resourceId := resourceId }] },
        some { eid := eid, resourceId := resourceId
               message := RenderableMessage.AddRenderable resourceId eid })
  | some ResourceState.Error => (s, none)

/-- Embedding of the body of the `.finally` continuation: look up the entity's
current index; when the index is gone, or the entry there carries a different
`resourceId`, the completed load is discarded; otherwise the captured message
is pushed back onto the queue.  `none` is returned where the JavaScript closure
would throw (`renderables[index]` being `undefined` while `index` is not). -/
def runContinuation (s : RendererState) (k : LoadContinuation) :
    Option RendererState :=
  match mapGet s.renderableIndices k.eid with
  | none => some s
  | some index =>
    match listNth s.renderables index with
    | none => none
    | some entry =>
      if entry.resourceId ≠ k.resourceId then some s
      else some { s with
        renderableMessageQueue := s.renderableMessageQueue ++ [k.message] }

/-- Embedding of `onRemoveRenderable`. -/
def onRemoveRenderable (s : RendererState) (eid : Nat) : RendererState :=
  match mapGet s.renderableIndices eid with
  | none => s
  | some index =>
    let p := spliceRemove s.renderables index
    let afterObject : List Nat × List (Nat × Nat) :=
      match p.2 with
      | r :: _ =>
        match r.object with
        | some o => (sceneRemove s.scene o, mapDel s.objectToEntityMap o)
        | none => (s.scene, s.objectToEntityMap)
      | [] => (s.scene, s.objectToEntityMap)
    let afterHelper : List Nat × List (Nat × Nat) :=
      match p.2 with
      | r :: _ =>
        match r.helper with
        | some h => (sceneRemove afterObject.1 h, mapDel afterObject.2 h)
        | none => afterObject
      | [] => afterObject
    { s with
        renderables := p.1
        renderableIndices := mapDel s.renderableIndices eid
        scene := afterHelper.1
        objectToEntityMap := afterHelper.2 }

/-- Embedding of `onSetActiveCamera`: when the entity has a live entry, the
code reads `renderables[index].object as Camera` and immediately tests
`perspectiveCamera.isPerspectiveCamera`; if the entry's object is `undefined`
(a still-loading placeholder) that property access throws a TypeError, which
`none` models; otherwise the module camera becomes the entry's object
(aspect/projection updates act on the camera's internals, which are outside
the embedded state). -/
def onSetActiveCamera (s : RendererState) (eid : Nat) : Option RendererState :=
  match mapGet s.renderableIndices eid with
  | none => some s
  | some index =>
    match listNth s.renderables index with
    | none => some s
    | some entry =>
      match entry.object with
      | none => none
      | some o => some { s with camera := some o }

/-- Live-iteration child transfer of `setScene`: the `for...of` loop iterates
`scene.children` while every `newScene.add(child)` removes that child from the
array being iterated, so the iterator steps past the element that slid into
the current position — the 1st, 3rd, 5th, ... children of the original order
are moved into the new scene and the rest stay behind on the old, no longer
displayed scene. -/
def moveChildrenLive : List Nat → List Nat
  | [] => []
  | [a] => [a]
  | a :: _ :: rest => a :: moveChildrenLive rest

/-- Embedding of `onSetActiveScene`: an unknown resource id only logs an error;
a loaded resource object becomes the module scene, receiving the children the
live `for...of` transfer reaches (`moveChildrenLive`) — the loaded scene
object's own pre-existing subtree was never attached by these handlers and is
outside the embedded children list; a still-loading resource defers the same
transfer to a `.then` continuation on the load promise (asynchronous, so not
part of the synchronous dispatch), and a failed resource's `.then` never
runs. -/
def onSetActiveScene (store : List (Nat × ResourceState)) (s : RendererState)
    (resourceId : Nat) (eid : Nat) : RendererState :=
  match mapGet store resourceId with
  | none => s
  | some (ResourceState.Loaded _) =>
    { s with scene := moveChildrenLive s.scene }
  | some ResourceState.Loading => s
  | some ResourceState.Error => s

/-- The `switch` of `processRenderableMessages`, dispatching one dequeued
message; `none` models the dispatched handler throwing (the `SetActiveCamera`
TypeError path).  The continuation a `Loading` resource attaches runs
asynchronously and is therefore not part of the synchronous dispatch
result. -/
def dispatchRenderableMessage (store : List (Nat × ResourceState))
    (s : RendererState) (m : RenderableMessage) : Option RendererState :=
  match m with
  | RenderableMessage.AddRenderable resourceId eid =>
    some (onAddRenderable store s resourceId eid).1
  | RenderableMessage.RemoveRenderable eid => some (onRemoveRenderable s eid)
  | RenderableMessage.SetActiveCamera eid => onSetActiveCamera s eid
  | RenderableMessage.SetActiveScene resourceId eid =>
    some (onSetActiveScene store s resourceId eid)

/-- Embedding of `onRenderableMessage`: enqueue at the back. -/
def onRenderableMessage (s : RendererState) (m : RenderableMessage) :
    RendererState :=
  { s with renderableMessageQueue := s.renderableMessageQueue ++ [m] }

/-- The `while (renderableMessageQueue.length)` loop of
`processRenderableMessages`: `shift()` the front message, dispatch it, repeat.
A throwing handler propagates its exception out of the loop (and out of
`onUpdate`, skipping that frame's buffer swap and render): the result flag is
`false`, the already-dispatched messages keep their effects, the throwing
message has already been shifted off, and the remaining messages stay queued.
The fuel argument bounds the iteration; a successful dispatch never touches
the queue, so the initial queue length is enough fuel to drain it. -/
def processRenderableMessagesAux (store : List (Nat × ResourceState)) :
    Nat → RendererState → RendererState × Bool
  | 0, s => (s, true)
  | Nat.succ fuel, s =>
    match s.renderableMessageQueue with
    | [] => (s, true)
    | m :: rest =>
      match dispatchRenderableMessage store
          { s with renderableMessageQueue := rest } m with
      | some next => processRenderableMessagesAux store fuel next
      | none => ({ s with renderableMessageQueue := rest }, false)

/-- Embedding of `processRenderableMessages`, run once at the start of every
render frame (before `swapReadBuffer` and `renderer.render` in `onUpdate`);
the flag is `false` when a handler threw and aborted the drain. -/
def processRenderableMessages (store : List (Nat × ResourceState))
    (s : RendererState) : RendererState × Bool :=
  processRenderableMessagesAux store s.renderableMessageQueue.length s

/-- Sequentially dispatch a list of messages in FIFO order, propagating a
handler's throw: the specification the drain loop is proved against. -/
def dispatchMany (store : List (Nat × ResourceState)) :
    RendererState → List RenderableMessage → Option RendererState
  | s, [] => some s
  | s, m :: rest =>
    match dispatchRenderableMessage store s m with
    | some next => dispatchMany store next rest
    | none => none

/-! ## The entity-to-renderable table invariant -/

/-- All bindings `eid ↦ idx` of an index map point at a live entry of the
`renderables` array whose `eid` field matches. -/
def renderableTablePairsOK (renderables : List Renderable) :
    List (Nat × Nat) → Bool
  | [] => true
  | p :: rest =>
    (match listNth renderables p.2 with
     | some r => r.eid == p.1
     | none => false)
    && renderableTablePairsOK renderables rest

/-- The invariant of claim C9 as a decidable predicate on the module state. -/
def renderableTableWF (s : RendererState) : Bool :=
  renderableTablePairsOK s.renderables s.renderableIndices

theorem renderableTablePairsOK_iff (renderables : List Renderable)
    (m : List (Nat × Nat)) :
    renderableTablePairsOK renderables m = true ↔
      ∀ p ∈ m, ∃ r, listNth renderables p.2 = some r ∧ r.eid = p.1 := by
  induction m with
  | nil => simp [renderableTablePairsOK]
  | cons p rest ih =>
    simp only [renderableTablePairsOK, Bool.and_eq_true, ih, List.mem_cons]
    constructor
    · rintro ⟨h1, h2⟩ q hq
      rcases hq with rfl | hq
      · cases hx : listNth renderables q.2 with
        | none => rw [hx] at h1; exact absurd h1 (by simp)
        | some r =>
          rw [hx] at h1
          exact ⟨r, rfl, by simpa using h1⟩
      · exact h2 q hq
    · intro h
      constructor
      · obtain ⟨r, hr, hre⟩ := h p (Or.inl rfl)
        rw [hr]
        simpa using hre
      · exact fun q hq => h q (Or.inr hq)

theorem wf_lookup {s : RendererState} (hwf : renderableTableWF s = true)
    {eid idx : Nat} (h : mapGet s.renderableIndices eid = some idx) :
    ∃ r, listNth s.renderables idx = some r ∧ r.eid = eid := by
  have hmem := mem_of_mapGet_some h
  exact (renderableTablePairsOK_iff s.renderables s.renderableIndices).mp hwf
    (eid, idx) hmem

/-! ## Scene membership -/

theorem mem_sceneAdd_iff (children : List Nat) (o y : Nat) :
    y ∈ sceneAdd children o ↔ y = o ∨ (y ∈ children ∧ y ≠ o) := by
  simp only [sceneAdd, List.mem_append, List.mem_filter, List.mem_singleton]
  constructor
  · rintro (⟨hy, hne⟩ | hy)
    · exact Or.inr ⟨hy, by simpa using hne⟩
    · exact Or.inl hy
  · rintro (hy | ⟨hy, hne⟩)
    · exact Or.inr hy
    · exact Or.inl ⟨hy, by simpa using hne⟩

theorem mem_sceneAdd_self (children : List Nat) (o : Nat) : o ∈ sceneAdd children o := by
  rw [mem_sceneAdd_iff]
  exact Or.inl rfl

theorem mem_sceneRemove_iff (children : List Nat) (o y : Nat) :
    y ∈ sceneRemove children o ↔ y ∈ children ∧ y ≠ o := by
  simp only [sceneRemove, List.mem_filter]
  constructor
  · rintro ⟨hy, hne⟩
    exact ⟨hy, by simpa using hne⟩
  · rintro ⟨hy, hne⟩
    exact ⟨hy, by simpa using hne⟩

/-! ## Queue-independence of the synchronous handlers -/

theorem onAddRenderable_queue_comm (store : List (Nat × ResourceState))
    (s : RendererState) (q : List RenderableMessage) (rid eid : Nat) :
    onAddRenderable store { s with renderableMessageQueue := q } rid eid =
      ({ (onAddRenderable store s rid eid).1 with renderableMessageQueue := q },
       (onAddRenderable store s rid eid).2) := by
  unfold onAddRenderable
  cases hst : mapGet store rid with
  | none => rfl
  | some rs =>
    cases rs with
    | Loaded obj =>
      cases hidx : mapGet s.renderableIndices eid with
      | none => rfl
      | some i => rfl
    | Loading =>
      cases hidx : mapGet s.renderableIndices eid with
      | none => rfl
      | some i => rfl
    | Error => rfl

theorem onRemoveRenderable_queue_comm (s : RendererState)
    (q : List RenderableMessage) (eid : Nat) :
    onRemoveRenderable { s with renderableMessageQueue := q } eid =
      { onRemoveRenderable s eid with renderableMessageQueue := q } := by
  unfold onRemoveRenderable
  cases hidx : mapGet s.renderableIndices eid with
  | none => rfl
  | some i => rfl

theorem onSetActiveCamera_queue_comm (s : RendererState)
    (q : List RenderableMessage) (eid : Nat) :
    onSetActiveCamera { s with renderableMessageQueue := q } eid =
      Option.map (fun t => { t with renderableMessageQueue := q })
        (onSetActiveCamera s eid) := by
  unfold onSetActiveCamera
  cases hidx : mapGet s.renderableIndices eid with
  | none => rfl
  | some i =>
    dsimp only
    cases hn : listNth s.renderables i with
    | none => rfl
    | some entry =>
      dsimp only
      cases ho : entry.object with
      | none => rfl
      | some o => rfl

theorem onSetActiveScene_queue_comm (store : List (Nat × ResourceState))
    (s : RendererState) (q : List RenderableMessage) (rid eid : Nat) :
    onSetActiveScene store { s with renderableMessageQueue := q } rid eid =
      { onSetActiveScene store s rid eid with renderableMessageQueue := q } := by
  unfold onSetActiveScene
  cases hst : mapGet store rid with
  | none => rfl
  | some rs =>
    cases rs with
    | Loaded obj => rfl
    | Loading => rfl
    | Error => rfl

theorem dispatch_queue_comm (store : List (Nat × ResourceState))
    (s : RendererState) (q : List RenderableMessage) (m : RenderableMessage) :
    dispatchRenderableMessage store { s with renderableMessageQueue := q } m =
      Option.map (fun t => { t with renderableMessageQueue := q })
        (dispatchRenderableMessage store s m) := by
  cases m with
  | AddRenderable rid eid =>
    show some (onAddRenderable store { s with renderableMessageQueue := q } rid eid).1 = _
    rw [onAddRenderable_queue_comm]
    rfl
  | RemoveRenderable eid =>
    show some (onRemoveRenderable { s with renderableMessageQueue := q } eid) = _
    rw [onRemoveRenderable_queue_comm]
    rfl
  | SetActiveCamera eid => exact onSetActiveCamera_queue_comm s q eid
  | SetActiveScene rid eid =>
    show some (onSetActiveScene store { s with renderableMessageQueue := q } rid eid) = _
    rw [onSetActiveScene_queue_comm]
    rfl

theorem dispatch_on_queue (store : List (Nat × ResourceState))
    (s : RendererState) (q : List RenderableMessage) (m : RenderableMessage) :
    dispatchRenderableMessage store { s with renderableMessageQueue := q } m =
      Option.map (fun t => { t with renderableMessageQueue := q })
        (dispatchRenderableMessage store
          { s with renderableMessageQueue := [] } m) := by
  rw [dispatch_queue_comm store s q m, dispatch_queue_comm store s [] m]
  cases hds : dispatchRenderableMessage store s m with
  | none => rfl
  | some w => rfl

theorem dispatch_queue_eq (store : List (Nat × ResourceState))
    (s : RendererState) (m : RenderableMessage) (t : RendererState)
    (h : dispatchRenderableMessage store s m = some t) :
    t.renderableMessageQueue = s.renderableMessageQueue := by
  have hc : dispatchRenderableMessage store s m =
      Option.map (fun u => { u with renderableMessageQueue := s.renderableMessageQueue })
        (dispatchRenderableMessage store s m) :=
    dispatch_queue_comm store s s.renderableMessageQueue m
  rw [h] at hc
  injection hc with hc
  have hc2 := congrArg RendererState.renderableMessageQueue hc
  exact hc2

theorem queue_eta (u : RendererState) (h : u.renderableMessageQueue = []) :
    { u with renderableMessageQueue := [] } = u := by
  obtain ⟨q0, rb, ri, o2e, sc, cam⟩ := u
  replace h : q0 = [] := h
  subst h
  rfl

/-! ## The drain loop is the FIFO sequential dispatch of the queue -/

theorem dispatchMany_queue (store : List (Nat × ResourceState)) :
    ∀ (q : List RenderableMessage) (s t : RendererState),
      dispatchMany store s q = some t →
      t.renderableMessageQueue = s.renderableMessageQueue := by
  intro q
  induction q with
  | nil =>
    intro s t h
    unfold dispatchMany at h
    injection h with h
    rw [← h]
  | cons m rest ih =>
    intro s t h
    unfold dispatchMany at h
    cases hd : dispatchRenderableMessage store s m with
    | none =>
      rw [hd] at h
      exact Option.noConfusion h
    | some u =>
      rw [hd] at h
      have h1 := ih u t h
      rw [h1, dispatch_queue_eq store s m u hd]

theorem dispatchMany_append (store : List (Nat × ResourceState)) :
    ∀ (q : List RenderableMessage) (s : RendererState) (m : RenderableMessage),
      dispatchMany store s (q ++ [m]) =
        (dispatchMany store s q).bind
          (fun t => dispatchRenderableMessage store t m) := by
  intro q
  induction q with
  | nil =>
    intro s m
    show dispatchMany store s [m] =
      Option.bind (some s) (fun t => dispatchRenderableMessage store t m)
    dsimp only [Option.bind]
    unfold dispatchMany
    cases hd : dispatchRenderableMessage store s m with
    | none => rfl
    | some u => rfl
  | cons m0 rest ih =>
    intro s m
    show dispatchMany store s (m0 :: (rest ++ [m])) = _
    unfold dispatchMany
    cases hd : dispatchRenderableMessage store s m0 with
    | none => rfl
    | some u =>
      dsimp only
      exact ih u m

theorem processAux_dispatchMany_some (store : List (Nat × ResourceState)) :
    ∀ (q : List RenderableMessage) (s t : RendererState),
      s.renderableMessageQueue = q →
      dispatchMany store { s with renderableMessageQueue := [] } q = some t →
      processRenderableMessagesAux store q.length s = (t, true) := by
  intro q
  induction q with
  | nil =>
    intro s t h hd
    unfold dispatchMany at hd
    injection hd with hd
    obtain ⟨q0, rb, ri, o2e, sc, cam⟩ := s
    replace h : q0 = [] := h
    subst h
    rw [← hd]
    rfl
  | cons m rest ih =>
    intro s t h hd
    have hstep : processRenderableMessagesAux store (m :: rest).length s =
        (match dispatchRenderableMessage store
            { s with renderableMessageQueue := rest } m with
         | some next => processRenderableMessagesAux store rest.length next
         | none => ({ s with renderableMessageQueue := rest }, false)) := by
      show processRenderableMessagesAux store (Nat.succ rest.length) s = _
      rw [processRenderableMessagesAux, h]
    unfold dispatchMany at hd
    cases hd0 : dispatchRenderableMessage store
        { s with renderableMessageQueue := [] } m with
    | none =>
      rw [hd0] at hd
      exact Option.noConfusion hd
    | some u =>
      rw [hd0] at hd
      have hcomm : dispatchRenderableMessage store
          { s with renderableMessageQueue := rest } m =
          some { u with renderableMessageQueue := rest } := by
        rw [dispatch_on_queue store s rest m, hd0]
        rfl
      rw [hstep, hcomm]
      have huq : u.renderableMessageQueue = [] :=
        dispatch_queue_eq store { s with renderableMessageQueue := [] } m u hd0
      have hd2 : dispatchMany store { u with renderableMessageQueue := [] } rest =
          some t := by
        rw [queue_eta u huq]
        exact hd
      exact ih { u with renderableMessageQueue := rest } t rfl hd2

theorem processAux_dispatchMany_none (store : List (Nat × ResourceState)) :
    ∀ (q : List RenderableMessage) (s : RendererState),
      s.renderableMessageQueue = q →
      dispatchMany store { s with renderableMessageQueue := [] } q = none →
      (processRenderableMessagesAux store q.length s).2 = false := by
  intro q
  induction q with
  | nil =>
    intro s h hd
    unfold dispatchMany at hd
    exact Option.noConfusion hd
  | cons m rest ih =>
    intro s h hd
    have hstep : processRenderableMessagesAux store (m :: rest).length s =
        (match dispatchRenderableMessage store
            { s with renderableMessageQueue := rest } m with
         | some next => processRenderableMessagesAux store rest.length next
         | none => ({ s with renderableMessageQueue := rest }, false)) := by
      show processRenderableMessagesAux store (Nat.succ rest.length) s = _
      rw [processRenderableMessagesAux, h]
    unfold dispatchMany at hd
    cases hd0 : dispatchRenderableMessage store
        { s with renderableMessageQueue := [] } m with
    | none =>
      have hfail : dispatchRenderableMessage store
          { s with renderableMessageQueue := rest } m = none := by
        rw [dispatch_on_queue store s rest m, hd0]
        rfl
      rw [hstep, hfail]
    | some u =>
      rw [hd0] at hd
      have hcomm : dispatchRenderableMessage store
          { s with renderableMessageQueue := rest } m =
          some { u with renderableMessageQueue := rest } := by
        rw [dispatch_on_queue store s rest m, hd0]
        rfl
      rw [hstep, hcomm]
      have huq : u.renderableMessageQueue = [] :=
        dispatch_queue_eq store { s with renderableMessageQueue := [] } m u hd0
      have hd2 : dispatchMany store { u with renderableMessageQueue := [] } rest =
          none := by
        rw [queue_eta u huq]
        exact hd
      exact ih { u with renderableMessageQueue := rest } rfl hd2

/-! ## Preservation of the table invariant -/

theorem pairsOK_lookup {renderables : List Renderable} {m : List (Nat × Nat)}
    (h : renderableTablePairsOK renderables m = true) {eid idx : Nat}
    (hm : mapGet m eid = some idx) :
    ∃ r, listNth renderables idx = some r ∧ r.eid = eid :=
  (renderableTablePairsOK_iff renderables m).mp h (eid, idx) (mem_of_mapGet_some hm)

theorem pairsOK_spliceReplace {renderables : List Renderable}
    {m : List (Nat × Nat)} {idx : Nat} {entry : Renderable}
    (h : renderableTablePairsOK renderables m = true)
    (hm : mapGet m entry.eid = some idx) :
    renderableTablePairsOK (spliceReplace renderables idx entry).1 m = true := by
  obtain ⟨r₀, hr₀, hr₀e⟩ := pairsOK_lookup h hm
  have hlt := listNth_some_lt hr₀
  rw [renderableTablePairsOK_iff] at h ⊢
  intro p hp
  obtain ⟨r, hr, hre⟩ := h p hp
  by_cases hpi : p.2 = idx
  · refine ⟨entry, ?_, ?_⟩
    · rw [hpi]
      exact listNth_spliceReplace_eq _ _ _ hlt
    · rw [hpi] at hr
      rw [hr] at hr₀
      injection hr₀ with hrr
      rw [← hre, hrr, hr₀e]
  · refine ⟨r, ?_, hre⟩
    rw [listNth_spliceReplace_ne _ _ _ _ hlt hpi]
    exact hr

theorem pairsOK_mapSet_append {renderables : List Renderable}
    {m : List (Nat × Nat)} {entry : Renderable}
    (h : renderableTablePairsOK renderables m = true) :
    renderableTablePairsOK (renderables ++ [entry])
      (mapSet m entry.eid renderables.length) = true := by
  rw [renderableTablePairsOK_iff]
  intro p hp
  rcases mem_mapSet hp with hp' | hp'
  · subst hp'
    exact ⟨entry, listNth_append_self _ _, rfl⟩
  · obtain ⟨r, hr, hre⟩ := (renderableTablePairsOK_iff renderables m).mp h p hp'
    refine ⟨r, ?_, hre⟩
    rw [listNth_append_lt _ _ _ (listNth_some_lt hr)]
    exact hr

theorem renderableTableWF_onAddRenderable
    (store : List (Nat × ResourceState)) (s : RendererState) (rid eid : Nat)
    (hwf : renderableTableWF s = true) :
    renderableTableWF (onAddRenderable store s rid eid).1 = true := by
  unfold onAddRenderable
  cases hst : mapGet store rid with
  | none => exact hwf
  | some rs =>
    cases rs with
    | Error => exact hwf
    | Loaded obj =>
      cases hidx : mapGet s.renderableIndices eid with
      | some idx => exact pairsOK_spliceReplace hwf hidx
      | none => exact pairsOK_mapSet_append hwf
    | Loading =>
      cases hidx : mapGet s.renderableIndices eid with
      | some idx => exact pairsOK_spliceReplace hwf hidx
      | none => exact pairsOK_mapSet_append hwf

theorem renderableTableWF_onRemoveRenderable_last
    (s : RendererState) (eid : Nat)
    (hwf : renderableTableWF s = true)
    (hlast : ∀ idx, mapGet s.renderableIndices eid = some idx →
      idx + 1 = s.renderables.length) :
    renderableTableWF (onRemoveRenderable s eid) = true := by
  unfold onRemoveRenderable
  cases hidx : mapGet s.renderableIndices eid with
  | none => exact hwf
  | some idx =>
    have hlen := hlast idx hidx
    obtain ⟨r₀, hr₀, hr₀e⟩ := wf_lookup hwf hidx
    show renderableTablePairsOK (spliceRemove s.renderables idx).1
      (mapDel s.renderableIndices eid) = true
    rw [renderableTablePairsOK_iff]
    intro q hq
    obtain ⟨hqm, hqne⟩ := mem_mapDel hq
    obtain ⟨r, hr, hre⟩ :=
      (renderableTablePairsOK_iff s.renderables s.renderableIndices).mp hwf q hqm
    have hqlt : q.2 < s.renderables.length := listNth_some_lt hr
    have hqi : q.2 ≠ idx := by
      intro heq
      rw [heq] at hr
      rw [hr] at hr₀
      injection hr₀ with hrr
      apply hqne
      rw [← hre, hrr, hr₀e]
    have hqlt' : q.2 < idx := by omega
    refine ⟨r, ?_, hre⟩
    rw [listNth_spliceRemove_lt _ _ _ hqlt']
    exact hr

/-! ## Reliable-ordered network receive path (modelled from the spec) -/

/-- Modelled from the spec: a message on the reliable-ordered channel, carrying
the entity id, the monotonic per-peer sequence number from the wire header, and
the decoded update payload.  The network receive path itself
(`network.game.ts`) is not among the provided sources. -/
structure ReliableMessage : Type where
  eid : Nat
  seq : Nat
  value : Nat
deriving DecidableEq

/-- Modelled from the spec: the receiver's per-entity record of the last
applied sequence number, plus the ordered log of the updates it applied. -/
structure ReliableReceiverState : Type where
  lastApplied : List (Nat × Nat)
  applied : List ReliableMessage
deriving DecidableEq

/-- A fresh receiver. -/
def initialReceiverState : ReliableReceiverState :=
  { lastApplied := [], applied := [] }

/-- Modelled from the spec: on the reliable-ordered channel "the receiver drops
any message whose sequence number is not greater than the last applied for that
entity"; otherwise the update is applied and the per-entity sequence number
advances. -/
def applyReliableMessage (s : ReliableReceiverState) (m : ReliableMessage) :
    ReliableReceiverState :=
  match mapGet s.lastApplied m.eid with
  | some last =>
    if last < m.seq then
      { lastApplied := mapSet s.lastApplied m.eid m.seq
        applied := s.applied ++ [m] }
    else s
  | none =>
    { lastApplied := mapSet s.lastApplied m.eid m.seq
      applied := s.applied ++ [m] }

/-- Deliver a batch of reliable-channel messages in arrival order. -/
def applyReliableMessages (s : ReliableReceiverState)
    (ms : List ReliableMessage) : ReliableReceiverState :=
  ms.foldl applyReliableMessage s

/-! ## Claim theorems -/

/-- C1: a resource released to zero references before its asynchronous load
completes has been marked `Disposed`; when the load eventually completes, the
`.then` handler in `updateAudioDatas` leaves such a resource untouched — the
payload is silently discarded, no transition to `Loaded` happens, and the
resource is still observed at `Disposed`. -/
theorem disposed_resource_unchanged_by_load_completion
    (a : MainAudioData) (payload : Option Nat)
    (h : a.loadStatus = LoadStatus.Disposed) :
    onAudioLoadResolved a payload = a ∧
      (onAudioLoadResolved a payload).loadStatus = LoadStatus.Disposed := by
  have h1 : onAudioLoadResolved a payload = a := by
    unfold onAudioLoadResolved
    rw [h]
    simp
  exact ⟨h1, by rw [h1, h]⟩

/-- Witness for C1: a concrete disposed audio resource whose completing load
changes nothing. -/
theorem disposed_resource_unchanged_by_load_completion_witness :
    (MainAudioData.mk LoadStatus.Disposed none).loadStatus = LoadStatus.Disposed
  ∧ onAudioLoadResolved (MainAudioData.mk LoadStatus.Disposed none) (some 5) =
      MainAudioData.mk LoadStatus.Disposed none :=
  ⟨rfl,
   (disposed_resource_unchanged_by_load_completion
      (MainAudioData.mk LoadStatus.Disposed none) (some 5) rfl).1⟩

/-- C7: a non-abort load failure transitions the resource to `Error`, and that
failure is terminal: every further `updateAudioDatas` frame leaves the resource
unchanged, because a load is only ever initiated for a resource whose status is
`Uninitialized`. -/
theorem load_failure_terminal (a : MainAudioData) :
    (onAudioLoadRejected a false).loadStatus = LoadStatus.Error
  ∧ (∀ n, updateAudioDataIter n (onAudioLoadRejected a false) =
      onAudioLoadRejected a false)
  ∧ (∀ b : MainAudioData, (updateAudioDataStep b).2 = true →
      b.loadStatus = LoadStatus.Uninitialized) := by
  refine ⟨rfl, ?_, ?_⟩
  · intro n
    induction n with
    | zero => rfl
    | succ n ih =>
      have hstep : (updateAudioDataStep (onAudioLoadRejected a false)).1 =
          onAudioLoadRejected a false := by
        unfold updateAudioDataStep onAudioLoadRejected
        simp
      show updateAudioDataIter n
        (updateAudioDataStep (onAudioLoadRejected a false)).1 = _
      rw [hstep, ih]
  · intro b hb
    unfold updateAudioDataStep at hb
    by_cases h : b.loadStatus = LoadStatus.Uninitialized
    · exact h
    · rw [if_neg h] at hb
      simp at hb

/-- Witness for C7: a load is initiated exactly on an uninitialized resource. -/
theorem load_failure_terminal_witness :
    (updateAudioDataStep (MainAudioData.mk LoadStatus.Uninitialized none)).2 = true
  ∧ (MainAudioData.mk LoadStatus.Uninitialized none).loadStatus =
      LoadStatus.Uninitialized :=
  ⟨by decide,
   (load_failure_terminal (MainAudioData.mk LoadStatus.Loading none)).2.2
      (MainAudioData.mk LoadStatus.Uninitialized none) (by decide)⟩

/-- C3: on the reliable-ordered channel the receiver drops any message whose
sequence number is not greater than the last applied sequence number for that
entity; delivering sequence numbers `[2, 1, 3]` for one entity produces exactly
the state of applying `[2, 3]` — message `1` is dropped as stale. -/
theorem reliable_channel_drops_stale :
    (∀ (s : ReliableReceiverState) (m : ReliableMessage) (last : Nat),
      mapGet s.lastApplied m.eid = some last → m.seq ≤ last →
      applyReliableMessage s m = s)
  ∧ applyReliableMessages initialReceiverState
      [ReliableMessage.mk 7 2 20, ReliableMessage.mk 7 1 10, ReliableMessage.mk 7 3 30] =
    applyReliableMessages initialReceiverState
      [ReliableMessage.mk 7 2 20, ReliableMessage.mk 7 3 30] := by
  constructor
  · intro s m last hm hle
    unfold applyReliableMessage
    rw [hm]
    dsimp only
    rw [if_neg (by omega)]
  · decide

/-- Witness for C3: a stale message at a concrete receiver state is dropped. -/
theorem reliable_channel_drops_stale_witness :
    mapGet (ReliableReceiverState.mk [(7, 5)] []).lastApplied 7 = some 5
  ∧ (3 : Nat) ≤ 5
  ∧ applyReliableMessage (ReliableReceiverState.mk [(7, 5)] [])
      (ReliableMessage.mk 7 3 99) = ReliableReceiverState.mk [(7, 5)] [] :=
  ⟨by decide, by decide,
   reliable_channel_drops_stale.1 (ReliableReceiverState.mk [(7, 5)] [])
      (ReliableMessage.mk 7 3 99) 5 (by decide) (by decide)⟩

/-- C6: `RemoveRenderable` is idempotent — applying it twice for the same
entity equals applying it once, and applying it to an entity with no current
association leaves the whole renderer state unchanged. -/
theorem remove_renderable_idempotent (s : RendererState) (eid : Nat) :
    onRemoveRenderable (onRemoveRenderable s eid) eid = onRemoveRenderable s eid
  ∧ (mapGet s.renderableIndices eid = none → onRemoveRenderable s eid = s) := by
  have hnoop : ∀ t : RendererState, mapGet t.renderableIndices eid = none →
      onRemoveRenderable t eid = t := by
    intro t ht
    unfold onRemoveRenderable
    rw [ht]
  constructor
  · cases hidx : mapGet s.renderableIndices eid with
    | none =>
      rw [hnoop s hidx]
      exact hnoop s hidx
    | some idx =>
      have hindices : (onRemoveRenderable s eid).renderableIndices =
          mapDel s.renderableIndices eid := by
        unfold onRemoveRenderable
        rw [hidx]
      refine hnoop _ ?_
      rw [hindices]
      exact mapGet_mapDel_self _ _
  · exact hnoop s

/-- Witness for C6: removing an entity with no association is a no-op. -/
theorem remove_renderable_idempotent_witness :
    mapGet initialRendererState.renderableIndices 3 = none
  ∧ onRemoveRenderable initialRendererState 3 = initialRendererState :=
  ⟨by decide, (remove_renderable_idempotent initialRendererState 3).2 (by decide)⟩

/-- C10: an `AddRenderable` whose `resourceId` has no entry in the resource
manager store only warns and returns: the renderer state is unchanged and no
continuation is attached. -/
theorem add_renderable_unknown_resource_noop (store : List (Nat × ResourceState))
    (s : RendererState) (rid eid : Nat) (h : mapGet store rid = none) :
    onAddRenderable store s rid eid = (s, none) := by
  unfold onAddRenderable
  rw [h]

/-- Witness for C10 at a concrete empty store. -/
theorem add_renderable_unknown_resource_noop_witness :
    mapGet ([] : List (Nat × ResourceState)) 4 = none
  ∧ onAddRenderable [] initialRendererState 4 9 = (initialRendererState, none) :=
  ⟨rfl, add_renderable_unknown_resource_noop [] initialRendererState 4 9 rfl⟩

/-- Store for the C8 counterexample: one still-loading resource. -/
def c8_store : List (Nat × ResourceState) := [(2, ResourceState.Loading)]

/-- A placeholder association for entity 20 (object still `undefined`). -/
def c8_s0 : RendererState :=
  (onAddRenderable c8_store initialRendererState 2 20).1

/-- The placeholder state with a two-message queue: a `SetActiveCamera` for the
object-less entity 20 followed by a `RemoveRenderable`. -/
def c8_s : RendererState :=
  { c8_s0 with renderableMessageQueue :=
      [RenderableMessage.SetActiveCamera 20, RenderableMessage.RemoveRenderable 20] }

/-- C8 counterexample: the claim that every render frame processes all queued
messages fails on the code.  Draining `c8_s` dispatches `SetActiveCamera(20)`,
whose handler dereferences the placeholder's `undefined` object and throws
(`onSetActiveCamera` returns `none`), aborting the drain: the flag is `false`,
the `RemoveRenderable(20)` message is still queued and unprocessed, and entity
20 is still present in the table — and the frame's read-slot swap and render
are skipped by the propagating exception. -/
theorem renderable_queue_drain_aborts_counterexample :
    processRenderableMessages c8_store c8_s =
      ({ c8_s0 with
          renderableMessageQueue := [RenderableMessage.RemoveRenderable 20] },
        false)
  ∧ mapGet (processRenderableMessages c8_store c8_s).1.renderableIndices 20 =
      some 0 := by decide

/-- C8 (amended): the drain at the start of each render frame — before
`onUpdate` swaps the read slot and renders — shift-processes the queued
messages strictly in enqueue (FIFO) order: whenever sequentially dispatching
the queued messages succeeds (no handler throws), the while-loop drain
produces exactly that state, completes with the flag `true`, and leaves the
queue empty; a message enqueued by `onRenderableMessage` is dispatched after
all previously queued messages; and when the sequential dispatch throws (a
`SetActiveCamera` dereferencing an object-less placeholder entry), the drain
aborts mid-queue with the flag `false`. -/
theorem renderable_queue_fifo_drain (store : List (Nat × ResourceState))
    (s : RendererState) :
    (∀ t : RendererState,
      dispatchMany store { s with renderableMessageQueue := [] }
          s.renderableMessageQueue = some t →
      processRenderableMessages store s = (t, true) ∧
        t.renderableMessageQueue = [])
  ∧ (∀ m : RenderableMessage,
      dispatchMany store { s with renderableMessageQueue := [] }
          ((onRenderableMessage s m).renderableMessageQueue) =
        (dispatchMany store { s with renderableMessageQueue := [] }
            s.renderableMessageQueue).bind
          (fun t => dispatchRenderableMessage store t m))
  ∧ (dispatchMany store { s with renderableMessageQueue := [] }
        s.renderableMessageQueue = none →
      (processRenderableMessages store s).2 = false) := by
  refine ⟨?_, ?_, ?_⟩
  · intro t ht
    refine ⟨processAux_dispatchMany_some store s.renderableMessageQueue s t rfl ht, ?_⟩
    have hq := dispatchMany_queue store s.renderableMessageQueue _ t ht
    exact hq.trans rfl
  · intro m
    exact dispatchMany_append store s.renderableMessageQueue
      { s with renderableMessageQueue := [] } m
  · intro h
    exact processAux_dispatchMany_none store s.renderableMessageQueue s rfl h

/-- Witness for the amended C8: a one-message queue whose dispatch succeeds is
fully drained with the completion flag set. -/
theorem renderable_queue_fifo_drain_witness :
    dispatchMany c8_store
      { initialRendererState with renderableMessageQueue := [] }
      [RenderableMessage.AddRenderable 2 20] = some c8_s0
  ∧ processRenderableMessages c8_store
      { initialRendererState with
        renderableMessageQueue := [RenderableMessage.AddRenderable 2 20] } =
      (c8_s0, true) :=
  ⟨by decide,
   ((renderable_queue_fifo_drain c8_store
      { initialRendererState with
        renderableMessageQueue := [RenderableMessage.AddRenderable 2 20] }).1
      c8_s0 (by decide)).1⟩

/-- C4: processing `AddRenderable(resourceId, entityId)` while the resource is
`Loaded` attaches the live object immediately: afterwards the entity's index
points at an entry carrying that `resourceId` and the loaded object, the object
is in the scene, and any previously attached (different) object for that entity
has been removed from the scene, its entry replaced.  The hypothesis
`renderableTableWF` is the entity-index table invariant. -/
theorem add_renderable_loaded_attaches (store : List (Nat × ResourceState))
    (s : RendererState) (rid eid obj : Nat)
    (hst : mapGet store rid = some (ResourceState.Loaded obj))
    (hwf : renderableTableWF s = true) :
    (∃ idx, mapGet ((onAddRenderable store s rid eid).1).renderableIndices eid =
        some idx ∧
      listNth ((onAddRenderable store s rid eid).1).renderables idx =
        some (Renderable.mk (some obj) none eid rid))
  ∧ obj ∈ ((onAddRenderable store s rid eid).1).scene
  ∧ (∀ idx₀ r₀ o₀, mapGet s.renderableIndices eid = some idx₀ →
      listNth s.renderables idx₀ = some r₀ → r₀.object = some o₀ → o₀ ≠ obj →
      o₀ ∉ ((onAddRenderable store s rid eid).1).scene) := by
  unfold onAddRenderable
  rw [hst]
  cases hidx : mapGet s.renderableIndices eid with
  | none =>
    dsimp only
    refine ⟨⟨s.renderables.length, mapGet_mapSet_self _ _ _,
      listNth_append_self _ _⟩, mem_sceneAdd_self _ _, ?_⟩
    intro idx₀ r₀ o₀ h₀ _ _ _
    exact absurd h₀ (by simp)
  | some idx =>
    obtain ⟨rOld, hrOld, hrOldE⟩ := wf_lookup hwf hidx
    have hlt := listNth_some_lt hrOld
    dsimp only
    refine ⟨⟨idx, hidx, listNth_spliceReplace_eq _ _ _ hlt⟩,
      mem_sceneAdd_self _ _, ?_⟩
    intro idx₀ r₀ o₀ h₀ hr₀ ho₀ hne hmem
    injection h₀ with h₀
    subst h₀
    rw [hrOld] at hr₀
    injection hr₀ with hr₀
    subst hr₀
    have hrem : (spliceReplace s.renderables idx
        (Renderable.mk (some obj) none eid rid)).2 = [rOld] :=
      spliceReplace_removed _ _ _ _ hrOld
    rw [hrem] at hmem
    unfold sceneAfterRemoved at hmem
    dsimp only at hmem
    rw [ho₀] at hmem
    dsimp only at hmem
    rw [mem_sceneAdd_iff] at hmem
    rcases hmem with hmem | ⟨hmem, -⟩
    · exact hne hmem
    · rw [mem_sceneRemove_iff] at hmem
      exact hmem.2 rfl

/-- Witness for C4: a loaded resource attached to a fresh entity ends up in the
scene. -/
theorem add_renderable_loaded_attaches_witness :
    mapGet [(5, ResourceState.Loaded 50)] 5 = some (ResourceState.Loaded 50)
  ∧ renderableTableWF initialRendererState = true
  ∧ 50 ∈ ((onAddRenderable [(5, ResourceState.Loaded 50)]
      initialRendererState 5 7).1).scene :=
  ⟨by decide, by decide,
   (add_renderable_loaded_attaches [(5, ResourceState.Loaded 50)]
      initialRendererState 5 7 50 (by decide) (by decide)).2.1⟩

/-- C5: processing `AddRenderable(resourceId, entityId)` while the resource is
still `Loading` stores a placeholder association — an entry for the entity
with no object — and attaches a one-shot continuation to the load promise;
running that continuation while the association is unchanged re-enqueues the
same message (no polling loop).  The hypothesis `renderableTableWF` is the
entity-index table invariant. -/
theorem add_renderable_loading_placeholder (store : List (Nat × ResourceState))
    (s : RendererState) (rid eid : Nat)
    (hst : mapGet store rid = some ResourceState.Loading)
    (hwf : renderableTableWF s = true) :
    (∃ idx, mapGet ((onAddRenderable store s rid eid).1).renderableIndices eid =
        some idx ∧
      listNth ((onAddRenderable store s rid eid).1).renderables idx =
        some (Renderable.mk none none eid rid))
  ∧ (onAddRenderable store s rid eid).2 =
      some (LoadContinuation.mk eid rid (RenderableMessage.AddRenderable rid eid))
  ∧ runContinuation (onAddRenderable store s rid eid).1
      (LoadContinuation.mk eid rid (RenderableMessage.AddRenderable rid eid)) =
      some { (onAddRenderable store s rid eid).1 with
        renderableMessageQueue :=
          ((onAddRenderable store s rid eid).1).renderableMessageQueue ++
            [RenderableMessage.AddRenderable rid eid] } := by
  unfold onAddRenderable
  rw [hst]
  cases hidx : mapGet s.renderableIndices eid with
  | none =>
    dsimp only
    refine ⟨⟨s.renderables.length, mapGet_mapSet_self _ _ _,
      listNth_append_self _ _⟩, rfl, ?_⟩
    unfold runContinuation
    dsimp only
    rw [mapGet_mapSet_self]
    dsimp only
    rw [listNth_append_self]
    dsimp only
    rw [if_neg (by simp)]
  | some idx =>
    obtain ⟨rOld, hrOld, hrOldE⟩ := wf_lookup hwf hidx
    have hlt := listNth_some_lt hrOld
    dsimp only
    refine ⟨⟨idx, hidx, listNth_spliceReplace_eq _ _ _ hlt⟩, rfl, ?_⟩
    unfold runContinuation
    dsimp only
    rw [hidx]
    dsimp only
    rw [listNth_spliceReplace_eq _ _ _ hlt]
    dsimp only
    rw [if_neg (by simp)]

/-- Witness for C5: a loading resource yields the placeholder continuation. -/
theorem add_renderable_loading_placeholder_witness :
    mapGet [(6, ResourceState.Loading)] 6 = some ResourceState.Loading
  ∧ renderableTableWF initialRendererState = true
  ∧ (onAddRenderable [(6, ResourceState.Loading)] initialRendererState 6 8).2 =
      some (LoadContinuation.mk 8 6 (RenderableMessage.AddRenderable 6 8)) :=
  ⟨by decide, by decide,
   (add_renderable_loading_placeholder [(6, ResourceState.Loading)]
      initialRendererState 6 8 (by decide) (by decide)).2.1⟩

/-! ## The C9 counterexample scenario: removal does not reindex later entries -/

/-- Store for the C9 scenario: two loaded resources. -/
def c9_store : List (Nat × ResourceState) :=
  [(1, ResourceState.Loaded 101), (2, ResourceState.Loaded 102)]

/-- After `AddRenderable(1, 10)`. -/
def c9_s1 : RendererState :=
  (onAddRenderable c9_store initialRendererState 1 10).1

/-- After `AddRenderable(2, 20)`. -/
def c9_s2 : RendererState := (onAddRenderable c9_store c9_s1 2 20).1

/-- After `RemoveRenderable(10)`: entity 20's recorded index is now stale. -/
def c9_s3 : RendererState := onRemoveRenderable c9_s2 10

/-- C9 counterexample: after `AddRenderable(1, 10)`, `AddRenderable(2, 20)`,
`RemoveRenderable(10)`, the index recorded for entity 20 is 1, but the
`renderables` array has length 1, so the recorded index is not a valid index —
`onRemoveRenderable` splices the array without reindexing the entries behind
the removed one. -/
theorem renderable_index_invariant_counterexample :
    mapGet c9_s3.renderableIndices 20 = some 1
  ∧ listNth c9_s3.renderables 1 = none
  ∧ renderableTableWF c9_s3 = false := by decide

/-- C9 (amended): the table invariant — every recorded index is a valid index
into `renderables` whose entry carries the same entity id — is preserved by
every `AddRenderable`, and by a `RemoveRenderable` whose removed entry is the
last of the `renderables` array (or whose entity has no entry); removing a
non-last entry breaks it, as the counterexample shows. -/
theorem renderable_index_invariant_preserved :
    (∀ (store : List (Nat × ResourceState)) (s : RendererState) (rid eid : Nat),
      renderableTableWF s = true →
      renderableTableWF (onAddRenderable store s rid eid).1 = true)
  ∧ (∀ (s : RendererState) (eid : Nat),
      renderableTableWF s = true →
      (∀ idx, mapGet s.renderableIndices eid = some idx →
        idx + 1 = s.renderables.length) →
      renderableTableWF (onRemoveRenderable s eid) = true) :=
  ⟨renderableTableWF_onAddRenderable, renderableTableWF_onRemoveRenderable_last⟩

/-- Witness for the amended C9 at concrete states: one add step from the
initial state, and a removal of the last entry of a one-entry table. -/
theorem renderable_index_invariant_preserved_witness :
    renderableTableWF initialRendererState = true
  ∧ renderableTableWF c9_s1 = true
  ∧ renderableTableWF (onRemoveRenderable c9_s1 10) = true :=
  ⟨by decide,
   renderable_index_invariant_preserved.1 c9_store initialRendererState 1 10
     (by decide),
   renderable_index_invariant_preserved.2 c9_s1 10 (by decide)
     (by
       intro idx h
       rw [show mapGet c9_s1.renderableIndices 10 = some 0 from by decide] at h
       injection h with h2
       rw [← h2]
       decide)⟩

/-! ## The C2 scenario: a stale continuation matching another entity's entry -/

/-- Store while resource 2 is still loading; resources 1 and 3 are loaded. -/
def c2_store1 : List (Nat × ResourceState) :=
  [(1, ResourceState.Loaded 101), (2, ResourceState.Loading),
   (3, ResourceState.Loaded 103)]

/-- Store after resource 2's load completes with object 102. -/
def c2_store2 : List (Nat × ResourceState) :=
  [(1, ResourceState.Loaded 101), (2, ResourceState.Loaded 102),
   (3, ResourceState.Loaded 103)]

/-- The continuation the loading resource 2 attaches for entity 20. -/
def c2_k : LoadContinuation :=
  LoadContinuation.mk 20 2 (RenderableMessage.AddRenderable 2 20)

/-- After `AddRenderable(1, 10)` (loaded). -/
def c2_s1 : RendererState :=
  (onAddRenderable c2_store1 initialRendererState 1 10).1

/-- After `AddRenderable(2, 20)` (loading: placeholder plus continuation). -/
def c2_s2 : RendererState := (onAddRenderable c2_store1 c2_s1 2 20).1

/-- After `AddRenderable(3, 20)`: entity 20's association is replaced by the
loaded resource 3 while resource 2 is still in flight. -/
def c2_s3 : RendererState := (onAddRenderable c2_store1 c2_s2 3 20).1

/-- After `AddRenderable(2, 30)`: entity 30 also waits on loading resource 2. -/
def c2_s4 : RendererState := (onAddRenderable c2_store1 c2_s3 2 30).1

/-- After `RemoveRenderable(10)`: the entries shift down one position but the
recorded indices of entities 20 and 30 do not. -/
def c2_s5 : RendererState := onRemoveRenderable c2_s4 10

/-- The state the stale continuation produces: the superseded message is back
on the queue. -/
def c2_s6 : RendererState :=
  { c2_s5 with renderableMessageQueue := [RenderableMessage.AddRenderable 2 20] }

/-- C2: the claim fails on the code.  In the scenario `c2_s1 … c2_s5`, entity
20's association was replaced by resource 3 (its entry at index 1 of `c2_s3`
carries resource 3), yet when resource 2's stale load completes, the
continuation looks up entity 20's stale recorded index, finds entity 30's
placeholder for the same resource 2, concludes the association is still
current, and re-enqueues the superseded message (`c2_s6`); draining the queue
after resource 2 finishes loading then attaches the superseded resource 2 as
entity 20's current entry.  The continuation compares only `resourceId` — not
the entry's `eid` — and `onRemoveRenderable` leaves stale indices behind, so a
superseded load result is re-enqueued and attached. -/
theorem stale_continuation_requeues_superseded_resource :
    (onAddRenderable c2_store1 c2_s1 2 20).2 = some c2_k
  ∧ mapGet c2_s3.renderableIndices 20 = some 1
  ∧ listNth c2_s3.renderables 1 =
      some (Renderable.mk (some 103) none 20 3)
  ∧ runContinuation c2_s5 c2_k = some c2_s6
  ∧ (processRenderableMessages c2_store2 c2_s6).2 = true
  ∧ mapGet (processRenderableMessages c2_store2 c2_s6).1.renderableIndices 20 =
      some 1
  ∧ listNth (processRenderableMessages c2_store2 c2_s6).1.renderables 1 =
      some (Renderable.mk (some 102) none 20 2)
  ∧ 102 ∈ (processRenderableMessages c2_store2 c2_s6).1.scene := by decide
